import Mathlib

/-!
Verification development for the sunset SSH library.

Shallow embedding of the wire codec, packet encryption layer, key-exchange
state machine and client authentication state machine, translated from the
Rust sources (`packets.rs`, `encrypt.rs`, `kex.rs`, `cliauth.rs`,
`client.rs`, `sshwire_derive`).  Support modules that are not among the
sources (`sshwire.rs`, `namelist.rs`, `sshnames.rs`, `error.rs`,
`ident.rs`) are modelled from the specification; each such definition is
marked `Modelled from the spec:` in its doc comment.

Cryptographic primitives (SHA-256, HMAC, ChaCha20-Poly1305, AES-CTR,
Curve25519, Ed25519) are external library code; they are represented by an
abstract bundle of functions `Prims` so that every theorem quantifies over
them.
-/

set_option autoImplicit false

deriving instance DecidableEq for Except

namespace Sunset

/-- Bytes on the wire, each intended to lie in `[0, 256)`. -/
abbrev Bytes := List Nat

/-- Modelled from the spec: error kinds of §7 plus the concrete constructors
referenced by the embedded sources (`error.rs` is not among the sources). -/
inductive Error where
  | SSHProtoError
  | BadDecrypt
  | NoRoom
  | PacketWrong
  | AlgoNoMatch (algo : String)
  | BadKex
  | BadSignature
  | SignatureMismatch
  | BehaviourError (msg : String)
  | Bug
  deriving Repr, DecidableEq

/-- Modelled from the spec: decode-failure kinds of §4.1 plus the
constructors referenced in `packets.rs` (`sshwire.rs` is not among the
sources). -/
inductive WireError where
  | ShortBuf
  | PacketWrong
  | UnknownPacket (number : Nat)
  deriving Repr, DecidableEq

/-! ## Algorithm names (`sshnames.rs` is not among the sources) -/

/-- Modelled from the spec: `curve25519-sha256` (§6). -/
def SSH_NAME_CURVE25519 : String := "curve25519-sha256"

/-- Modelled from the spec: `curve25519-sha256@libssh.org` (§6). -/
def SSH_NAME_CURVE25519_LIBSSH : String := "curve25519-sha256@libssh.org"

/-- Modelled from the spec: `ext-info-c` marker kex name (§4.4). -/
def SSH_NAME_EXT_INFO_C : String := "ext-info-c"

/-- Modelled from the spec: `ext-info-s` marker kex name (§4.4). -/
def SSH_NAME_EXT_INFO_S : String := "ext-info-s"

/-- Modelled from the spec: `kexguess2@matt.ucc.asn.au` marker kex name (§4.4). -/
def SSH_NAME_KEXGUESS2 : String := "kexguess2@matt.ucc.asn.au"

/-- Modelled from the spec: `ssh-ed25519` (§6). -/
def SSH_NAME_ED25519 : String := "ssh-ed25519"

/-- Modelled from the spec: `rsa-sha2-256` (§4.5). -/
def SSH_NAME_RSA_SHA256 : String := "rsa-sha2-256"

/-- Modelled from the spec: legacy `ssh-rsa` key-format name (§6). -/
def SSH_NAME_RSA : String := "ssh-rsa"

/-- Modelled from the spec: `chacha20-poly1305@openssh.com` (§4.3). -/
def SSH_NAME_CHAPOLY : String := "chacha20-poly1305@openssh.com"

/-- Modelled from the spec: `aes256-ctr` (§4.3). -/
def SSH_NAME_AES256_CTR : String := "aes256-ctr"

/-- Modelled from the spec: `hmac-sha2-256` (§4.3). -/
def SSH_NAME_HMAC_SHA256 : String := "hmac-sha2-256"

/-- Modelled from the spec: the `none` algorithm name (§4.4: compression). -/
def SSH_NAME_NONE : String := "none"

/-- Modelled from the spec: the `ssh-userauth` service name (§4.5). -/
def SSH_SERVICE_USERAUTH : String := "ssh-userauth"

/-- Modelled from the spec: the `ssh-connection` service name (§4.5). -/
def SSH_SERVICE_CONNECTION : String := "ssh-connection"

/-- Modelled from the spec: the `password` authentication method name (§4.5). -/
def SSH_AUTHMETHOD_PASSWORD : String := "password"

/-- Modelled from the spec: the `publickey` authentication method name (§4.5). -/
def SSH_AUTHMETHOD_PUBLICKEY : String := "publickey"

/-- Modelled from the spec: our identification line without CR/LF
(`ident.rs` is not among the sources; the kex tests hard-code
`SSH-2.0-sunset` "because that's what we send"). -/
def OUR_VERSION : Bytes := "SSH-2.0-sunset".data.map Char.toNat

/-- ASCII bytes of a string, used for wire-level variant names. -/
def strBytes (s : String) : Bytes := s.data.map Char.toNat

/-! ## Wire codec primitives

`sshwire.rs` is not among the sources; the primitive encoders/decoders are
modelled from spec §4.1. -/

/-- Modelled from the spec: big-endian `u32` encoding (§4.1). -/
def be32 (n : Nat) : Bytes := [n / 2 ^ 24 % 256, n / 2 ^ 16 % 256, n / 2 ^ 8 % 256, n % 256]

/-- Modelled from the spec: `u8` decoding (§4.1). -/
def decU8 : Bytes → Except WireError (Nat × Bytes)
  | a :: r => .ok (a, r)
  | _ => .error .ShortBuf

/-- Modelled from the spec: big-endian `u32` decoding (§4.1). -/
def decU32 : Bytes → Except WireError (Nat × Bytes)
  | a :: b :: c :: d :: r => .ok (a * 2 ^ 24 + b * 2 ^ 16 + c * 2 ^ 8 + d, r)
  | _ => .error .ShortBuf

/-- Modelled from the spec: `bool` decoding, one byte, nonzero is true (§4.1). -/
def decBool : Bytes → Except WireError (Bool × Bytes)
  | a :: r => .ok (decide (a ≠ 0), r)
  | _ => .error .ShortBuf

/-- Modelled from the spec: length-prefixed byte-string decoding, failing when
the length field exceeds the remaining input (§4.1). -/
def decBin (b : Bytes) : Except WireError (Bytes × Bytes) :=
  match decU32 b with
  | .error e => .error e
  | .ok (n, rest) =>
    if n ≤ rest.length then .ok (rest.take n, rest.drop n) else .error .ShortBuf

/-- Modelled from the spec: a blob wraps an inner structure behind a `u32`
length; decoding bounds the inner parse to that length (§4.1). -/
def decBlob {α : Type} (inner : Bytes → Except WireError (α × Bytes)) (b : Bytes) :
    Except WireError (α × Bytes) :=
  match decBin b with
  | .error e => .error e
  | .ok (blob, rest) =>
    match inner blob with
    | .error e => .error e
    | .ok (v, _) => .ok (v, rest)

/-- Modelled from the spec: length-prefixed byte-string encoding (§4.1). -/
def encBin (v : Bytes) : Bytes := be32 v.length ++ v

/-! ## Wire model: public keys, signatures, channel-open types

Translated from `packets.rs` together with the code generated for them by
`sshwire_derive/src/lib.rs` (variant-name prefix, unknown-variant capture). -/

/-- `PubKey` of `packets.rs`: `Ed25519` / `RSA` / catch-all `Unknown`. -/
inductive PubKeyP where
  | Ed25519 (key : Bytes)
  | RSA (e n : Bytes)
  | Unknown (name : Bytes)
  deriving Repr, DecidableEq

/-- `Signature` of `packets.rs`. -/
inductive SignatureP where
  | Ed25519 (sig : Bytes)
  | RSA256 (sig : Bytes)
  | Unknown (name : Bytes)
  deriving Repr, DecidableEq

/-- Generated `SSHDecodeEnum::dec_enum` for `PubKey`: dispatch on the decoded
variant name, unrecognised names fall through to `Unknown` capturing the name
bytes (`sshwire_derive` lines 517-567). -/
def PubKeyP.dec_enum (variant : Bytes) (b : Bytes) : Except WireError (PubKeyP × Bytes) :=
  if variant = strBytes SSH_NAME_ED25519 then
    match decBin b with
    | .error e => .error e
    | .ok (key, r) => .ok (.Ed25519 key, r)
  else if variant = strBytes SSH_NAME_RSA then
    match decBin b with
    | .error e => .error e
    | .ok (e, r) =>
      match decBin r with
      | .error e2 => .error e2
      | .ok (n, r2) => .ok (.RSA e n, r2)
  else .ok (.Unknown variant, b)

/-- Generated `SSHDecode::dec` for `PubKey` (variant-prefix form): read the
name string, then `dec_enum`. -/
def PubKeyP.dec (b : Bytes) : Except WireError (PubKeyP × Bytes) :=
  match decBin b with
  | .error e => .error e
  | .ok (variant, r) => PubKeyP.dec_enum variant r

/-- Generated `SSHEncodeEnum::variant_name` for `PubKey`: the `Unknown`
variant refuses with a bug error (`sshwire_derive` lines 357-410). -/
def PubKeyP.variant_name : PubKeyP → Except Error String
  | .Ed25519 _ => .ok SSH_NAME_ED25519
  | .RSA _ _ => .ok SSH_NAME_RSA
  | .Unknown _ => .error .Bug

/-- Generated `SSHEncode::enc` for `PubKey` (variant-prefix form): the
`Unknown` variant refuses with a bug error and yields no bytes
(`sshwire_derive` lines 272-342). -/
def PubKeyP.enc : PubKeyP → Except Error Bytes
  | .Ed25519 key => .ok (encBin (strBytes SSH_NAME_ED25519) ++ encBin key)
  | .RSA e n => .ok (encBin (strBytes SSH_NAME_RSA) ++ encBin e ++ encBin n)
  | .Unknown _ => .error .Bug

/-- `ForwardedTcpip` of `packets.rs`. -/
structure ForwardedTcpipP where
  address : Bytes
  port : Nat
  origin : Bytes
  origin_port : Nat
  deriving Repr, DecidableEq

/-- `DirectTcpip` of `packets.rs`. -/
structure DirectTcpipP where
  address : Bytes
  port : Nat
  origin : Bytes
  origin_port : Nat
  deriving Repr, DecidableEq

/-- Field-by-field decoder for `ForwardedTcpip`. -/
def ForwardedTcpipP.dec (b : Bytes) : Except WireError (ForwardedTcpipP × Bytes) :=
  match decBin b with
  | .error e => .error e
  | .ok (address, r) =>
    match decU32 r with
    | .error e => .error e
    | .ok (port, r) =>
      match decBin r with
      | .error e => .error e
      | .ok (origin, r) =>
        match decU32 r with
        | .error e => .error e
        | .ok (origin_port, r) =>
          .ok ({ address, port, origin, origin_port }, r)

/-- Field-by-field decoder for `DirectTcpip`. -/
def DirectTcpipP.dec (b : Bytes) : Except WireError (DirectTcpipP × Bytes) :=
  match decBin b with
  | .error e => .error e
  | .ok (address, r) =>
    match decU32 r with
    | .error e => .error e
    | .ok (port, r) =>
      match decBin r with
      | .error e => .error e
      | .ok (origin, r) =>
        match decU32 r with
        | .error e => .error e
        | .ok (origin_port, r) =>
          .ok ({ address, port, origin, origin_port }, r)

/-- Field-by-field encoder for `ForwardedTcpip`. -/
def ForwardedTcpipP.encBytes (f : ForwardedTcpipP) : Bytes :=
  encBin f.address ++ be32 f.port ++ encBin f.origin ++ be32 f.origin_port

/-- Field-by-field encoder for `DirectTcpip`. -/
def DirectTcpipP.encBytes (d : DirectTcpipP) : Bytes :=
  encBin d.address ++ be32 d.port ++ encBin d.origin ++ be32 d.origin_port

/-- `ChannelOpenType` of `packets.rs`. -/
inductive ChannelOpenType where
  | Session
  | ForwardedTcpip (f : ForwardedTcpipP)
  | DirectTcpip (d : DirectTcpipP)
  | Unknown (name : Bytes)
  deriving Repr, DecidableEq

/-- Generated `SSHDecodeEnum::dec_enum` for `ChannelOpenType`: unrecognised
channel-type names fall through to `Unknown` capturing the name bytes. -/
def ChannelOpenType.dec_enum (variant : Bytes) (b : Bytes) :
    Except WireError (ChannelOpenType × Bytes) :=
  if variant = strBytes "session" then .ok (.Session, b)
  else if variant = strBytes "forwarded-tcpip" then
    match ForwardedTcpipP.dec b with
    | .error e => .error e
    | .ok (f, r) => .ok (.ForwardedTcpip f, r)
  else if variant = strBytes "direct-tcpip" then
    match DirectTcpipP.dec b with
    | .error e => .error e
    | .ok (d, r) => .ok (.DirectTcpip d, r)
  else .ok (.Unknown variant, b)

/-- Generated `SSHEncodeEnum::variant_name` for `ChannelOpenType`: the
`Unknown` variant refuses with a bug error. -/
def ChannelOpenType.variant_name : ChannelOpenType → Except Error String
  | .Session => .ok "session"
  | .ForwardedTcpip _ => .ok "forwarded-tcpip"
  | .DirectTcpip _ => .ok "direct-tcpip"
  | .Unknown _ => .error .Bug

/-- Generated `SSHEncode::enc` for `ChannelOpenType` (payload only; the
variant name is emitted by the enclosing `ChannelOpen`): the `Unknown`
variant refuses with a bug error. -/
def ChannelOpenType.encPayload : ChannelOpenType → Except Error Bytes
  | .Session => .ok []
  | .ForwardedTcpip f => .ok f.encBytes
  | .DirectTcpip d => .ok d.encBytes
  | .Unknown _ => .error .Bug

/-- `ChannelOpen` of `packets.rs`; the `num` field carries the
`#[sshwire(variant_name = ty)]` attribute so the channel-type name of `ty`
is encoded first. -/
structure ChannelOpenP where
  num : Nat
  initial_window : Nat
  max_packet : Nat
  ty : ChannelOpenType
  deriving Repr, DecidableEq

/-- Generated `SSHEncode::enc` for `ChannelOpen`: the channel-type name of
`ty` first (failing for `Unknown`), then fields in order, then the `ty`
payload. No bytes are produced when any step fails. -/
def ChannelOpenP.enc (c : ChannelOpenP) : Except Error Bytes :=
  match c.ty.variant_name with
  | .error e => .error e
  | .ok name =>
    match c.ty.encPayload with
    | .error e => .error e
    | .ok payload =>
      .ok (encBin (strBytes name) ++ be32 c.num ++ be32 c.initial_window ++
        be32 c.max_packet ++ payload)

/-- Generated `SSHDecode::dec` for `ChannelOpen`: sibling-name form, the
channel-type name is read before the numeric fields and the union is decoded
against it afterwards. -/
def ChannelOpenP.dec (b : Bytes) : Except WireError (ChannelOpenP × Bytes) :=
  match decBin b with
  | .error e => .error e
  | .ok (name, r) =>
    match decU32 r with
    | .error e => .error e
    | .ok (num, r) =>
      match decU32 r with
      | .error e => .error e
      | .ok (initial_window, r) =>
        match decU32 r with
        | .error e => .error e
        | .ok (max_packet, r) =>
          match ChannelOpenType.dec_enum name r with
          | .error e => .error e
          | .ok (ty, r) => .ok ({ num, initial_window, max_packet, ty }, r)

/-! ## Context-sensitive decoding: `Userauth60` (`packets.rs` lines 135-155) -/

/-- Modelled from the spec: the client authentication-type hint (§4.1;
`auth.rs` is not among the sources). -/
inductive AuthType where
  | Password
  | PubKey
  deriving Repr, DecidableEq

/-- `ParseContext` of `packets.rs`. -/
structure ParseContext where
  cli_auth_type : Option AuthType := none
  method_pubkey_force_sig_bool : Bool := false
  seen_unknown : Bool := false
  deriving Repr, DecidableEq

/-- `UserauthPkOk` of `packets.rs`. -/
structure UserauthPkOkP where
  algo : Bytes
  key : PubKeyP
  deriving Repr, DecidableEq

/-- `UserauthPwChangeReq` of `packets.rs`. -/
structure UserauthPwChangeReqP where
  prompt : Bytes
  lang : Bytes
  deriving Repr, DecidableEq

/-- Field-by-field decoder for `UserauthPkOk` (`algo` string, then a
key blob). -/
def UserauthPkOkP.dec (b : Bytes) : Except WireError (UserauthPkOkP × Bytes) :=
  match decBin b with
  | .error e => .error e
  | .ok (algo, r) =>
    match decBlob PubKeyP.dec r with
    | .error e => .error e
    | .ok (key, r) => .ok ({ algo, key }, r)

/-- Field-by-field decoder for `UserauthPwChangeReq`. -/
def UserauthPwChangeReqP.dec (b : Bytes) : Except WireError (UserauthPwChangeReqP × Bytes) :=
  match decBin b with
  | .error e => .error e
  | .ok (prompt, r) =>
    match decBin r with
    | .error e => .error e
    | .ok (lang, r) => .ok ({ prompt, lang }, r)

/-- `Userauth60` of `packets.rs`: the message numbered 60. -/
inductive Userauth60P where
  | PkOk (p : UserauthPkOkP)
  | PwChangeReq (r : UserauthPwChangeReqP)
  deriving Repr, DecidableEq

/-- Hand-written `SSHDecode` for `Userauth60` (`packets.rs` lines 143-155):
the variant is selected by the parse context's client authentication-type
hint; without a hint the decode fails with `PacketWrong`. -/
def Userauth60P.dec (ctx : ParseContext) (b : Bytes) :
    Except WireError (Userauth60P × Bytes) :=
  match ctx.cli_auth_type with
  | some .Password =>
    match UserauthPwChangeReqP.dec b with
    | .error e => .error e
    | .ok (v, r) => .ok (.PwChangeReq v, r)
  | some .PubKey =>
    match UserauthPkOkP.dec b with
    | .error e => .error e
    | .ok (v, r) => .ok (.PkOk v, r)
  | none => .error .PacketWrong

/-! ## Abstract cryptographic primitives

External library crates (`sha2`, `hmac`, `ring`, `aes`/`ctr`, `salty`) are
not part of this repository; they enter the embedding as an abstract bundle
of functions over which every theorem quantifies. -/

/-- A name-list as negotiated in `KexInit`: an ordered list of algorithm
names (`namelist.rs` holds the concrete wire form; it is not among the
sources). -/
abbrev NameList := List String

/-- `KexInit` of `packets.rs`. -/
structure KexInitP where
  cookie : Bytes
  kex : NameList
  hostsig : NameList
  cipher_c2s : NameList
  cipher_s2c : NameList
  mac_c2s : NameList
  mac_s2c : NameList
  comp_c2s : NameList
  comp_s2c : NameList
  lang_c2s : NameList
  lang_s2c : NameList
  first_follows : Bool
  reserved : Nat
  deriving Repr, DecidableEq

/-- Abstract cryptographic and serialization primitives supplied by external
crates (hashing, MACs, ciphers, signatures, key agreement, randomness) and
by the wire serializer (`sshwire.rs` is not among the sources) for the
payloads hashed whole into the exchange hash. -/
structure Prims where
  sha256 : Bytes → Bytes
  hmacSha256 : Bytes → Bytes → Bytes
  chapolySealEnc : Bytes → Nat → Bytes → Bytes
  chapolySealTag : Bytes → Nat → Bytes → Bytes
  chapolyOpen : Bytes → Nat → Bytes → Bytes → Option Bytes
  chapolyDecLen : Bytes → Nat → Bytes → Bytes
  aesCtr : Bytes → Bytes → Bytes → Bytes
  ed25519Verify : Bytes → Bytes → Bytes → Bool
  ed25519Sign : Bytes → Bytes → Bytes
  curve25519Base : Bytes → Bytes
  curve25519Agree : Bytes → Bytes → Bytes
  randomBytes : Nat → Bytes
  serKexInit : KexInitP → Bytes
  serPubKey : PubKeyP → Bytes

/-! ## Packet framing and cryptography (`encrypt.rs`) -/

/-- `SSH_MIN_PACKET_SIZE` of `encrypt.rs` (RFC4253 §6, including the length
field, excluding the MAC). -/
def SSH_MIN_PACKET_SIZE : Nat := 16

/-- `SSH_MIN_PADLEN` of `encrypt.rs`. -/
def SSH_MIN_PADLEN : Nat := 4

/-- `SSH_MIN_BLOCK` of `encrypt.rs`. -/
def SSH_MIN_BLOCK : Nat := 8

/-- `SSH_LENGTH_SIZE` of `encrypt.rs`. -/
def SSH_LENGTH_SIZE : Nat := 4

/-- `SSH_PAYLOAD_START` of `encrypt.rs`. -/
def SSH_PAYLOAD_START : Nat := SSH_LENGTH_SIZE + 1

/-- `Cipher` of `encrypt.rs`: a cipher prior to keying. -/
inductive Cipher where
  | ChaPoly
  | Aes256Ctr
  deriving Repr, DecidableEq

/-- `Cipher::from_name` of `encrypt.rs`. -/
def Cipher.from_name (name : String) : Except Error Cipher :=
  if name = SSH_NAME_CHAPOLY then .ok .ChaPoly
  else if name = SSH_NAME_AES256_CTR then .ok .Aes256Ctr
  else .error .Bug

/-- `Cipher::key_len` of `encrypt.rs` (ChaPoly uses the 64-byte openssh
chacha20-poly1305 key, AES-256 a 32-byte key). -/
def Cipher.key_len : Cipher → Nat
  | .ChaPoly => 64
  | .Aes256Ctr => 32

/-- `Cipher::iv_len` of `encrypt.rs`. -/
def Cipher.iv_len : Cipher → Nat
  | .ChaPoly => 0
  | .Aes256Ctr => 16

/-- `Integ` of `encrypt.rs`: an integrity algorithm prior to keying. -/
inductive Integ where
  | ChaPoly
  | HmacSha256
  deriving Repr, DecidableEq

/-- `Cipher::integ` of `encrypt.rs`: the implied integrity algorithm of an
AEAD cipher, `none` otherwise. -/
def Cipher.integ : Cipher → Option Integ
  | .ChaPoly => some .ChaPoly
  | .Aes256Ctr => none

/-- `Integ::from_name` of `encrypt.rs`. -/
def Integ.from_name (name : String) : Except Error Integ :=
  if name = SSH_NAME_HMAC_SHA256 then .ok .HmacSha256
  else .error .Bug

/-- `Integ::key_len` of `encrypt.rs`. -/
def Integ.key_len : Integ → Nat
  | .ChaPoly => 0
  | .HmacSha256 => 32

/-- `EncKey` of `encrypt.rs`: a keyed encryption cipher. -/
inductive EncKey where
  | ChaPoly (key : Bytes)
  | Aes256Ctr (key iv : Bytes)
  | NoCipher
  deriving Repr, DecidableEq

/-- `EncKey::is_aead` of `encrypt.rs`. -/
def EncKey.is_aead : EncKey → Bool
  | .ChaPoly _ => true
  | .Aes256Ctr _ _ => false
  | .NoCipher => false

/-- `EncKey::size_block` of `encrypt.rs` (AES block size 16, otherwise the
SSH minimum block 8). -/
def EncKey.size_block : EncKey → Nat
  | .ChaPoly _ => SSH_MIN_BLOCK
  | .Aes256Ctr _ _ => 16
  | .NoCipher => SSH_MIN_BLOCK

/-- `EncKey::from_cipher` of `encrypt.rs`: key/iv material of the wrong
length traps as a bug. -/
def EncKey.from_cipher (cipher : Cipher) (key iv : Bytes) : Except Error EncKey :=
  match cipher with
  | .ChaPoly => if key.length = 64 then .ok (.ChaPoly key) else .error .Bug
  | .Aes256Ctr =>
    if key.length = 32 ∧ iv.length = 16 then .ok (.Aes256Ctr key iv) else .error .Bug

/-- `DecKey` of `encrypt.rs`: a keyed decryption cipher. -/
inductive DecKey where
  | ChaPoly (key : Bytes)
  | Aes256Ctr (key iv : Bytes)
  | NoCipher
  deriving Repr, DecidableEq

/-- `DecKey::is_aead` of `encrypt.rs`. -/
def DecKey.is_aead : DecKey → Bool
  | .ChaPoly _ => true
  | .Aes256Ctr _ _ => false
  | .NoCipher => false

/-- `DecKey::size_block` of `encrypt.rs`. -/
def DecKey.size_block : DecKey → Nat
  | .ChaPoly _ => SSH_MIN_BLOCK
  | .Aes256Ctr _ _ => 16
  | .NoCipher => SSH_MIN_BLOCK

/-- `DecKey::from_cipher` of `encrypt.rs`. -/
def DecKey.from_cipher (cipher : Cipher) (key iv : Bytes) : Except Error DecKey :=
  match cipher with
  | .ChaPoly => if key.length = 64 then .ok (.ChaPoly key) else .error .Bug
  | .Aes256Ctr =>
    if key.length = 32 ∧ iv.length = 16 then .ok (.Aes256Ctr key iv) else .error .Bug

/-- `IntegKey` of `encrypt.rs`: a keyed integrity algorithm. -/
inductive IntegKey where
  | ChaPoly
  | HmacSha256 (key : Bytes)
  | NoInteg
  deriving Repr, DecidableEq

/-- `IntegKey::from_integ` of `encrypt.rs`. -/
def IntegKey.from_integ (integ : Integ) (key : Bytes) : Except Error IntegKey :=
  match integ with
  | .ChaPoly => .ok .ChaPoly
  | .HmacSha256 => if key.length = 32 then .ok (.HmacSha256 key) else .error .Bug

/-- `IntegKey::size_out` of `encrypt.rs` (poly1305 tag 16 bytes, HMAC-SHA256
32 bytes). -/
def IntegKey.size_out : IntegKey → Nat
  | .ChaPoly => 16
  | .HmacSha256 _ => 32
  | .NoInteg => 0

/-- `Keys` of `encrypt.rs`: one direction pair of cipher and integrity keys. -/
structure Keys where
  enc : EncKey
  dec : DecKey
  integ_enc : IntegKey
  integ_dec : IntegKey
  deriving Repr, DecidableEq

/-- `Keys::new_cleartext` of `encrypt.rs`. -/
def Keys.new_cleartext : Keys :=
  { enc := .NoCipher, dec := .NoCipher, integ_enc := .NoInteg, integ_dec := .NoInteg }

/-- `Keys::calc_encrypt_pad` of `encrypt.rs`: padding to reach the minimum
packet length, the minimum padding size, and block alignment of the
encrypted length (which excludes the length field for AEAD ciphers). -/
def Keys.calc_encrypt_pad (k : Keys) (payload_len : Nat) : Nat :=
  let size_block := k.enc.size_block
  let len := 1 + payload_len + (if k.enc.is_aead then 0 else SSH_LENGTH_SIZE)
  let padlen := size_block - len % size_block
  let padlen := if padlen < SSH_MIN_PADLEN then padlen + size_block else padlen
  if SSH_LENGTH_SIZE + 1 + payload_len + padlen < SSH_MIN_PACKET_SIZE then
    padlen + size_block
  else
    padlen

/-- `Keys::encrypt` of `encrypt.rs`: frame the payload with length, padding
byte count and random padding, MAC, then encrypt in place; returns the total
length and the produced wire bytes. -/
def Keys.encrypt (pr : Prims) (k : Keys) (payload_len : Nat) (buf : Bytes) (seq : Nat) :
    Except Error (Nat × Bytes) :=
  let size_integ := k.integ_enc.size_out
  let padlen := k.calc_encrypt_pad payload_len
  let len := SSH_LENGTH_SIZE + 1 + payload_len + padlen
  if len + size_integ > buf.length then .error .NoRoom
  else
    let payload := (buf.drop SSH_PAYLOAD_START).take payload_len
    let enc0 := be32 (len - SSH_LENGTH_SIZE) ++ [padlen % 256] ++ payload ++
      pr.randomBytes padlen
    let mac0 : Bytes :=
      match k.integ_enc with
      | .ChaPoly => []
      | .NoInteg => []
      | .HmacSha256 key => pr.hmacSha256 key (be32 seq ++ enc0)
    let out :=
      match k.enc with
      | .ChaPoly key => pr.chapolySealEnc key seq enc0 ++ pr.chapolySealTag key seq enc0
      | .Aes256Ctr key iv => pr.aesCtr key iv enc0 ++ mac0
      | .NoCipher => enc0 ++ mac0
    .ok (len + size_integ, out)

/-- `Keys::decrypt_first_block` of `encrypt.rs`: decrypt the first block and
return the total packet length computed from the decrypted length field;
`u32` overflow of the checked addition is a decrypt failure. -/
def Keys.decrypt_first_block (pr : Prims) (k : Keys) (buf : Bytes) (seq : Nat) :
    Except Error Nat :=
  if buf.length < k.dec.size_block then .error .Bug
  else
    let buf4 := buf.take 4
    let d4 : Bytes :=
      match k.dec with
      | .ChaPoly key => pr.chapolyDecLen key seq buf4
      | .Aes256Ctr key iv => (pr.aesCtr key iv (buf.take 16)).take 4
      | .NoCipher => buf4
    let len := (d4.getD 0 0) * 2 ^ 24 + (d4.getD 1 0) * 2 ^ 16 + (d4.getD 2 0) * 2 ^ 8 +
      d4.getD 3 0
    if len + (SSH_LENGTH_SIZE + k.integ_dec.size_out) < 2 ^ 32 then
      .ok (len + (SSH_LENGTH_SIZE + k.integ_dec.size_out))
    else .error .BadDecrypt

/-- `Keys::decrypt` of `encrypt.rs`: length checks, block-multiple check,
cipher application, tag or MAC verification, padding check; returns the
payload length. -/
def Keys.decrypt (pr : Prims) (k : Keys) (buf : Bytes) (seq : Nat) : Except Error Nat :=
  let size_block := k.dec.size_block
  let size_integ := k.integ_dec.size_out
  if buf.length < size_block + size_integ then .error .SSHProtoError
  else if buf.length < SSH_MIN_PACKET_SIZE + size_integ then .error .SSHProtoError
  else
    let sublength := if k.dec.is_aead then SSH_LENGTH_SIZE else 0
    let len := buf.length - size_integ - sublength
    if len % size_block ≠ 0 then .error .SSHProtoError
    else
      let data := buf.take (buf.length - size_integ)
      let mac := buf.drop (buf.length - size_integ)
      let step1 : Except Error Bytes :=
        match k.dec with
        | .ChaPoly key =>
          match pr.chapolyOpen key seq data mac with
          | none => .error .BadDecrypt
          | some d => .ok d
        | .Aes256Ctr key iv =>
          .ok (if data.length > 16 then data.take 16 ++ pr.aesCtr key iv (data.drop 16)
               else data)
        | .NoCipher => .ok data
      match step1 with
      | .error e => .error e
      | .ok data =>
        let step2 : Except Error Unit :=
          match k.integ_dec with
          | .ChaPoly => .ok ()
          | .NoInteg => .ok ()
          | .HmacSha256 key =>
            if pr.hmacSha256 key (be32 seq ++ data) = mac then .ok ()
            else .error .BadDecrypt
        match step2 with
        | .error e => .error e
        | .ok _ =>
          let padlen := data.getD SSH_LENGTH_SIZE 0
          if padlen < SSH_MIN_PADLEN then .error .SSHProtoError
          else if buf.length < SSH_LENGTH_SIZE + 1 + size_integ + padlen then
            .error .SSHProtoError
          else .ok (buf.length - (SSH_LENGTH_SIZE + 1 + size_integ + padlen))

/-- `KeyState` of `encrypt.rs`: stateful `Keys` plus the two packet sequence
numbers, which are `Wrapping<u32>` counters (modelled as naturals reduced mod
`2 ^ 32`). -/
structure KeyState where
  keys : Keys
  seq_encrypt : Nat
  seq_decrypt : Nat
  deriving Repr, DecidableEq

/-- `KeyState::new_cleartext` of `encrypt.rs`: no encryption, zero sequence
numbers. -/
def KeyState.new_cleartext : KeyState :=
  { keys := Keys.new_cleartext, seq_encrypt := 0, seq_decrypt := 0 }

/-- `KeyState::rekey` of `encrypt.rs`: install new keys, keeping the same
sequence numbers. -/
def KeyState.rekey (st : KeyState) (keys : Keys) : KeyState :=
  { st with keys := keys }

/-- `KeyState::decrypt_first_block` of `encrypt.rs`: stateless with respect
to the sequence numbers. -/
def KeyState.decrypt_first_block (pr : Prims) (st : KeyState) (buf : Bytes) :
    Except Error Nat × KeyState :=
  (st.keys.decrypt_first_block pr buf st.seq_decrypt, st)

/-- `KeyState::decrypt` of `encrypt.rs`: whole-packet decrypt, incrementing
the receive sequence number whether or not the inner decrypt succeeded. -/
def KeyState.decrypt (pr : Prims) (st : KeyState) (buf : Bytes) :
    Except Error Nat × KeyState :=
  (st.keys.decrypt pr buf st.seq_decrypt,
    { st with seq_decrypt := (st.seq_decrypt + 1) % 2 ^ 32 })

/-- `KeyState::encrypt` of `encrypt.rs`: whole-packet encrypt, incrementing
the send sequence number whether or not the inner encrypt succeeded. -/
def KeyState.encrypt (pr : Prims) (st : KeyState) (payload_len : Nat) (buf : Bytes) :
    Except Error (Nat × Bytes) × KeyState :=
  (st.keys.encrypt pr payload_len buf st.seq_encrypt,
    { st with seq_encrypt := (st.seq_encrypt + 1) % 2 ^ 32 })

/-! ## Name-list operations

`namelist.rs` is not among the sources; its operations are modelled from the
spec (§3 "name-list", §4.4 "Algorithm negotiation"). -/

/-- Modelled from the spec: the first entry of a name-list (empty name when
the list is empty). -/
def NameList.first (l : NameList) : String := l.headD ""

/-- Modelled from the spec: whether a name-list contains an algorithm name. -/
def NameList.has_algo (l : NameList) (name : String) : Bool := l.contains name

/-- Modelled from the spec: "pick the first entry in the client's list also
present in the server's list" (§4.4). `remote` is the peer's list and `ours`
the local configuration; when we are the client our list is the client's,
otherwise the peer's is. -/
def NameList.first_match (remote : NameList) (is_client : Bool) (ours : NameList) :
    Option String :=
  if is_client then ours.find? (fun n => remote.contains n)
  else remote.find? (fun n => ours.contains n)

/-! ## Key exchange (`kex.rs`) -/

/-- `fixed_options_kex` of `kex.rs`. -/
def fixed_options_kex : List String := [SSH_NAME_CURVE25519, SSH_NAME_CURVE25519_LIBSSH]

/-- `marker_only_kexs` of `kex.rs`: kex names that are markers only and can
not be negotiated. -/
def marker_only_kexs : List String :=
  [SSH_NAME_EXT_INFO_C, SSH_NAME_EXT_INFO_S, SSH_NAME_KEXGUESS2]

/-- `fixed_options_hostsig` of `kex.rs` (without the `rsa` feature). -/
def fixed_options_hostsig : List String := [SSH_NAME_ED25519]

/-- `fixed_options_cipher` of `kex.rs`. -/
def fixed_options_cipher : List String := [SSH_NAME_CHAPOLY, SSH_NAME_AES256_CTR]

/-- `fixed_options_mac` of `kex.rs`. -/
def fixed_options_mac : List String := [SSH_NAME_HMAC_SHA256]

/-- `fixed_options_comp` of `kex.rs`. -/
def fixed_options_comp : List String := [SSH_NAME_NONE]

/-- `AlgoConfig` of `kex.rs`. -/
structure AlgoConfig where
  kexs : NameList
  hostsig : NameList
  ciphers : NameList
  macs : NameList
  comps : NameList
  deriving Repr, DecidableEq

/-- `AlgoConfig::new` of `kex.rs`: the standard algorithm configuration;
clients additionally offer `ext-info-c`, and both sides append the
`kexguess2` marker. -/
def AlgoConfig.new (is_client : Bool) : AlgoConfig :=
  { kexs := fixed_options_kex ++ (if is_client then [SSH_NAME_EXT_INFO_C] else []) ++
      [SSH_NAME_KEXGUESS2]
    hostsig := fixed_options_hostsig
    ciphers := fixed_options_cipher
    macs := fixed_options_mac
    comps := fixed_options_comp }

/-- `SigType` of `sign.rs`. -/
inductive SigType where
  | Ed25519
  | RSA256
  deriving Repr, DecidableEq

/-- `SigType::from_name` of `sign.rs`. -/
def SigType.from_name (name : String) : Except Error SigType :=
  if name = SSH_NAME_ED25519 then .ok .Ed25519
  else if name = SSH_NAME_RSA_SHA256 then .ok .RSA256
  else .error .Bug

/-- `SigType::verify` of `sign.rs`: Ed25519 verifies through the library
primitive, RSA256 is unimplemented, mismatched key/signature kinds are
rejected. -/
def SigType.verify (pr : Prims) (t : SigType) (pubkey : PubKeyP) (message : Bytes)
    (sig : SignatureP) : Except Error Unit :=
  match t, pubkey, sig with
  | .Ed25519, .Ed25519 k, .Ed25519 s =>
    if pr.ed25519Verify k message s then .ok () else .error .BadSignature
  | .RSA256, _, _ => .error .BadSignature
  | _, _, _ => .error .SignatureMismatch

/-- `KexCurve25519` of `kex.rs`, inlined into `SharedSecret`: the optional
private key (cleared after deriving the secret) and the public point. -/
inductive SharedSecret where
  | KexCurve25519 (ours : Option Bytes) (pubkey : Bytes)
  deriving Repr, DecidableEq

/-- `KexCurve25519::new` of `kex.rs`: fresh random secret and its public
point. -/
def KexCurve25519.new (pr : Prims) : SharedSecret :=
  .KexCurve25519 (some (pr.randomBytes 32)) (pr.curve25519Base (pr.randomBytes 32))

/-- `SharedSecret::from_name` of `kex.rs`: both curve25519 names construct a
fresh `KexCurve25519`; any other name is a bug. -/
def SharedSecret.from_name (pr : Prims) (name : String) : Except Error SharedSecret :=
  if name = SSH_NAME_CURVE25519 ∨ name = SSH_NAME_CURVE25519_LIBSSH then
    .ok (KexCurve25519.new pr)
  else .error .Bug

/-- `SharedSecret::pubkey` of `kex.rs`. -/
def SharedSecret.pubkey : SharedSecret → Bytes
  | .KexCurve25519 _ pub => pub

/-- `Algos` of `kex.rs`: the negotiated algorithms, the one-shot
first-follows discard flag, the role, and the ext-info flag. -/
structure Algos where
  kex : SharedSecret
  hostsig : SigType
  cipher_enc : Cipher
  cipher_dec : Cipher
  integ_enc : Integ
  integ_dec : Integ
  discard_next : Bool
  is_client : Bool
  send_ext_info : Bool
  deriving Repr, DecidableEq

/-- `Kex::algo_negotiation` of `kex.rs` (lines 379-483): for each category
the first client entry present in the server's list; marker kex names are
not negotiable; the MAC category is skipped for AEAD ciphers; the
first-follows discard flag is derived from the kex and host-key guesses. -/
def Kex.algo_negotiation (pr : Prims) (is_client : Bool) (p : KexInitP)
    (conf : AlgoConfig) : Except Error Algos :=
  let kexguess2 := NameList.has_algo p.kex SSH_NAME_KEXGUESS2
  match NameList.first_match p.kex is_client conf.kexs with
  | none => .error (.AlgoNoMatch "kex")
  | some kex_method =>
  if marker_only_kexs.contains kex_method then .error (.AlgoNoMatch "kex")
  else
  match SharedSecret.from_name pr kex_method with
  | .error e => .error e
  | .ok kex =>
  let goodguess_kex :=
    if kexguess2 then NameList.first p.kex == kex_method
    else NameList.first p.kex == NameList.first conf.kexs
  let send_ext_info :=
    match is_client with
    | true => false
    | false => NameList.has_algo p.kex SSH_NAME_EXT_INFO_C
  match NameList.first_match p.hostsig is_client conf.hostsig with
  | none => .error (.AlgoNoMatch "hostkey")
  | some hostsig_method =>
  match SigType.from_name hostsig_method with
  | .error e => .error e
  | .ok hostsig =>
  let goodguess_hostkey :=
    if kexguess2 then NameList.first p.hostsig == hostsig_method
    else NameList.first p.hostsig == NameList.first conf.hostsig
  let c2s := (p.cipher_c2s, p.mac_c2s, p.comp_c2s)
  let s2c := (p.cipher_s2c, p.mac_s2c, p.comp_s2c)
  let tx := if is_client then c2s else s2c
  let rx := if is_client then s2c else c2s
  match NameList.first_match tx.1 is_client conf.ciphers with
  | none => .error (.AlgoNoMatch "encryption")
  | some ntx =>
  match Cipher.from_name ntx with
  | .error e => .error e
  | .ok cipher_enc =>
  match NameList.first_match rx.1 is_client conf.ciphers with
  | none => .error (.AlgoNoMatch "encryption")
  | some nrx =>
  match Cipher.from_name nrx with
  | .error e => .error e
  | .ok cipher_dec =>
  match (match cipher_enc.integ with
         | some integ => Except.ok integ
         | none =>
           match NameList.first_match tx.2.1 is_client conf.macs with
           | none => Except.error (Error.AlgoNoMatch "mac")
           | some n => Integ.from_name n) with
  | .error e => .error e
  | .ok integ_enc =>
  match (match cipher_dec.integ with
         | some integ => Except.ok integ
         | none =>
           match NameList.first_match rx.2.1 is_client conf.macs with
           | none => Except.error (Error.AlgoNoMatch "mac")
           | some n => Integ.from_name n) with
  | .error e => .error e
  | .ok integ_dec =>
  match NameList.first_match tx.2.2 is_client conf.comps with
  | none => .error (.AlgoNoMatch "compression")
  | some _ =>
  match NameList.first_match rx.2.2 is_client conf.comps with
  | none => .error (.AlgoNoMatch "compression")
  | some _ =>
  .ok { kex := kex
        hostsig := hostsig
        cipher_enc := cipher_enc
        cipher_dec := cipher_dec
        integ_enc := integ_enc
        integ_dec := integ_dec
        discard_next := p.first_follows && !(goodguess_kex && goodguess_hostkey)
        is_client := is_client
        send_ext_info := send_ext_info }

/-- `Kex::make_kexinit` of `kex.rs`. -/
def Kex.make_kexinit (cookie : Bytes) (conf : AlgoConfig) : KexInitP :=
  { cookie := cookie
    kex := conf.kexs
    hostsig := conf.hostsig
    cipher_c2s := conf.ciphers
    cipher_s2c := conf.ciphers
    mac_c2s := conf.macs
    mac_s2c := conf.macs
    comp_c2s := conf.comps
    comp_s2c := conf.comps
    lang_c2s := []
    lang_s2c := []
    first_follows := false
    reserved := 0 }

/-! ## Exchange hash (`kex.rs` `KexHash`)

The SHA-256 context is modelled by the byte stream absorbed so far; the
digest itself is the abstract `Prims.sha256` applied at `finish`. -/

/-- `KexHash::hash_slice` of `kex.rs`: absorb a slice with a `u32` length
prefix. -/
def KexHash.hash_slice (ctx : Bytes) (v : Bytes) : Bytes := ctx ++ be32 v.length ++ v

/-- `hash_ser_length` of the wire support code: absorb a serialized value
with a `u32` length prefix (the caller supplies the serialized bytes). -/
def hash_ser_length (ctx : Bytes) (ser : Bytes) : Bytes := ctx ++ be32 ser.length ++ ser

/-- Modelled from the spec: mpint encoding, a length-prefixed big-endian
integer with a leading zero byte when the high bit of the first payload byte
is set (glossary; `sshwire.rs` holds `hash_mpint` and is not among the
sources). -/
def mpintBytes (m : Bytes) : Bytes :=
  let pad : Bool := match m with | [] => false | b :: _ => decide (128 ≤ b)
  be32 (m.length + (if pad then 1 else 0)) ++ (if pad then [0] else []) ++ m

/-- `hash_mpint`: absorb a byte string padded as an mpint. -/
def hash_mpint (ctx : Bytes) (m : Bytes) : Bytes := ctx ++ mpintBytes m

/-- `KexHash::new` of `kex.rs` (lines 130-167): absorb, per RFC4253 §8,
the two version lines then the two `KexInit` payloads, client side first in
both pairs; our own `KexInit` packet is recreated from the cookie and the
configuration. -/
def KexHash.new (pr : Prims) (is_client : Bool) (remote_version : Bytes)
    (our_cookie : Bytes) (conf : AlgoConfig) (remote_kexinit : KexInitP) : Bytes :=
  let own_kexinit := Kex.make_kexinit our_cookie conf
  if is_client then
    hash_ser_length
      (hash_ser_length
        (KexHash.hash_slice (KexHash.hash_slice [] OUR_VERSION) remote_version)
        (pr.serKexInit own_kexinit))
      (pr.serKexInit remote_kexinit)
  else
    hash_ser_length
      (hash_ser_length
        (KexHash.hash_slice (KexHash.hash_slice [] remote_version) OUR_VERSION)
        (pr.serKexInit remote_kexinit))
      (pr.serKexInit own_kexinit)

/-- `KexHash::prefinish` of `kex.rs` (lines 169-182): absorb the host key
blob (length-prefixed serialization), then the client and server public
points as length-prefixed strings. -/
def KexHash.prefinish (pr : Prims) (ctx : Bytes) (host_key : PubKeyP) (q_c q_s : Bytes) :
    Bytes :=
  KexHash.hash_slice (KexHash.hash_slice (hash_ser_length ctx (pr.serPubKey host_key)) q_c)
    q_s

/-- `KexHash::finish` of `kex.rs` (lines 184-191): absorb the shared secret
padded as an mpint, then produce the digest. -/
def KexHash.finish (pr : Prims) (ctx : Bytes) (k : Bytes) : Bytes :=
  pr.sha256 (hash_mpint ctx k)

/-- `KexOutput` of `kex.rs`: the exchange hash `h` and the partial hash
context that has already absorbed `K || H`. -/
structure KexOutput where
  h : Bytes
  prehash : Bytes
  deriving Repr, DecidableEq

/-- `KexOutput::new` of `kex.rs`: finish the exchange hash with the shared
secret, and seed the partial hash with `K || H`. -/
def KexOutput.new (pr : Prims) (k : Bytes) (kex_hash : Bytes) : KexOutput :=
  let h := KexHash.finish pr kex_hash k
  { h := h, prehash := hash_mpint [] k ++ h }

/-- `KexOutput::compute_key` of `kex.rs` (lines 626-665): RFC4253 §7.2,
`K1 = HASH(K || H || letter || session_id)`, extended by
`K2 = HASH(K || H || K1)` when more bytes are needed; `out_len` is the size
of the caller's buffer. -/
def KexOutput.compute_key (pr : Prims) (ko : KexOutput) (letter : Nat) (len : Nat)
    (out_len : Nat) (sess_id : Bytes) : Except Error Bytes :=
  if len > out_len then .error .Bug
  else
    let w := pr.sha256 (ko.prehash ++ [letter] ++ sess_id)
    let k1 := w.take (min len 32)
    let k2 := (pr.sha256 (ko.prehash ++ k1)).take (len - k1.length)
    .ok (k1 ++ k2)

/-- Modelled from the spec: `Keys::derive` (§4.3 key derivation; the
function called from `handle_newkeys` is not in the `encrypt.rs` snapshot,
whose `Keys::new_from` carries the same structure): derive IVs, cipher keys
and integrity keys with letters `A`..`F` swapped per role, and build the
keyed `Keys`. -/
def Keys.derive (pr : Prims) (output : KexOutput) (sess_id : Bytes) (algos : Algos) :
    Except Error Keys :=
  let letters : Nat × Nat × Nat × Nat × Nat × Nat :=
    if algos.is_client then (65, 66, 67, 68, 69, 70) else (66, 65, 68, 67, 70, 69)
  match letters with
  | (iv_e, iv_d, k_e, k_d, i_e, i_d) =>
  match output.compute_key pr iv_e algos.cipher_enc.iv_len 32 sess_id with
  | .error e => .error e
  | .ok iv1 =>
  match output.compute_key pr k_e algos.cipher_enc.key_len 64 sess_id with
  | .error e => .error e
  | .ok key1 =>
  match EncKey.from_cipher algos.cipher_enc key1 iv1 with
  | .error e => .error e
  | .ok enc =>
  match output.compute_key pr iv_d algos.cipher_dec.iv_len 32 sess_id with
  | .error e => .error e
  | .ok iv2 =>
  match output.compute_key pr k_d algos.cipher_dec.key_len 64 sess_id with
  | .error e => .error e
  | .ok key2 =>
  match DecKey.from_cipher algos.cipher_dec key2 iv2 with
  | .error e => .error e
  | .ok dec =>
  match output.compute_key pr i_e algos.integ_enc.key_len 64 sess_id with
  | .error e => .error e
  | .ok ik1 =>
  match IntegKey.from_integ algos.integ_enc ik1 with
  | .error e => .error e
  | .ok integ_enc =>
  match output.compute_key pr i_d algos.integ_enc.key_len 64 sess_id with
  | .error e => .error e
  | .ok ik2 =>
  match IntegKey.from_integ algos.integ_dec ik2 with
  | .error e => .error e
  | .ok integ_dec =>
  .ok { enc := enc, dec := dec, integ_enc := integ_enc, integ_dec := integ_dec }

/-! ## Kex state machine (`kex.rs` `Kex`) -/

/-- `KexDHInit` of `packets.rs`. -/
structure KexDHInitP where
  q_c : Bytes
  deriving Repr, DecidableEq

/-- `KexDHReply` of `packets.rs`. -/
structure KexDHReplyP where
  k_s : PubKeyP
  q_s : Bytes
  sig : SignatureP
  deriving Repr, DecidableEq

/-- Packets sent through `TrafSend::send` by the embedded state machines. -/
inductive PacketO where
  | ServiceRequest (name : String)
  | UserauthRequest (username : String) (service : String)
  | KexDHInit (q_c : Bytes)
  | KexDHReply (k_s : PubKeyP) (q_s : Bytes) (sig : Bytes)
  | NewKeys
  deriving Repr, DecidableEq

/-- `SignKey` of `sign.rs`, restricted to the Ed25519 keys the build
supports: public key bytes and the signing secret. -/
structure SignKey where
  pub_bytes : Bytes
  sec : Bytes
  deriving Repr, DecidableEq

/-- The `PubKey` packet form of a `SignKey`. -/
def SignKey.pubkey (k : SignKey) : PubKeyP := .Ed25519 k.pub_bytes

/-- `SignKey::can_sign`: an Ed25519 key signs Ed25519 only. -/
def SignKey.can_sign (_k : SignKey) (t : SigType) : Bool := t = SigType.Ed25519

/-- `SignKey::sign` through the abstract Ed25519 primitive. -/
def SignKey.sign (pr : Prims) (k : SignKey) (msg : Bytes) : Bytes :=
  pr.ed25519Sign k.sec msg

/-- Server behaviour capability set used by the kex handlers
(`behaviour.rs`): the host-key provider. -/
structure ServBehaviour where
  hostkeys : Except Error (List SignKey)

/-- Client behaviour capability set used by the kex handlers
(`behaviour.rs`): host-key validation. -/
structure CliBehaviour where
  valid_hostkey : PubKeyP → Except Unit Bool

/-- `Kex` of `kex.rs`: the key-exchange state. -/
inductive Kex where
  | Idle
  | KexInit (our_cookie : Bytes)
  | KexDH (algos : Algos) (kex_hash : Bytes)
  | NewKeys (output : KexOutput) (algos : Algos)
  | Taken
  deriving Repr, DecidableEq

/-- `KexCurve25519::secret` of `kex.rs`: consume the private key, check the
peer point is 32 bytes, agree, and build the `KexOutput`. -/
def KexCurve25519.secret (pr : Prims) (algos : Algos) (theirs : Bytes) (kex_hash : Bytes) :
    Except Error (KexOutput × Algos) :=
  match algos.kex with
  | .KexCurve25519 ours pub =>
    match ours with
    | none => .error .Bug
    | some sk =>
      if theirs.length = 32 then
        .ok (KexOutput.new pr (pr.curve25519Agree sk theirs) kex_hash,
          { algos with kex := .KexCurve25519 none pub })
      else .error .BadKex

/-- `SharedSecret::handle_kexdhreply` of `kex.rs` (client side): finish the
hash, derive the secret, verify the host signature over `H`, then consult
the behaviour's host-key validation. -/
def SharedSecret.handle_kexdhreply (pr : Prims) (b : CliBehaviour) (algos : Algos)
    (kex_hash : Bytes) (p : KexDHReplyP) : Except Error (KexOutput × Algos) :=
  let ctx := KexHash.prefinish pr kex_hash p.k_s algos.kex.pubkey p.q_s
  match KexCurve25519.secret pr algos p.q_s ctx with
  | .error e => .error e
  | .ok (kex_out, algos) =>
    match SigType.verify pr algos.hostsig p.k_s kex_out.h p.sig with
    | .error e => .error e
    | .ok _ =>
      match b.valid_hostkey p.k_s with
      | .ok true => .ok (kex_out, algos)
      | _ => .error (.BehaviourError "Host key rejected")

/-- `SharedSecret::send_kexdhreply` of `kex.rs` (server side): the reply
packet with host key blob, our public point and the signature over `H`. -/
def SharedSecret.send_kexdhreply (pr : Prims) (ko : KexOutput) (kex_pub : Bytes)
    (hostkey : SignKey) : PacketO :=
  .KexDHReply hostkey.pubkey kex_pub (hostkey.sign pr ko.h)

/-- `SharedSecret::handle_kexdhinit` of `kex.rs` (server side): select a
host key able to sign, finish the hash, derive the secret and send the
reply. -/
def SharedSecret.handle_kexdhinit_srv (pr : Prims) (b : ServBehaviour) (algos : Algos)
    (kex_hash : Bytes) (p : KexDHInitP) : Except Error (KexOutput × Algos × List PacketO) :=
  match b.hostkeys with
  | .error e => .error e
  | .ok hks =>
    match hks.find? (fun k => k.can_sign algos.hostsig) with
    | none => .error .Bug
    | some hostkey =>
      let ctx := KexHash.prefinish pr kex_hash hostkey.pubkey p.q_c algos.kex.pubkey
      match KexCurve25519.secret pr algos p.q_c ctx with
      | .error e => .error e
      | .ok (kex_out, algos) =>
        .ok (kex_out, algos,
          [SharedSecret.send_kexdhreply pr kex_out algos.kex.pubkey hostkey])

/-- `Kex::handle_kexdhinit` of `kex.rs` (lines 310-334): on the server in
`KexDH`, a set discard flag silently drops the packet and clears the flag;
otherwise the exchange completes, moving to `NewKeys` and sending our
`NewKeys`; any other state is a wrong packet (after `take()` the state is
left `Taken`). -/
def Kex.handle_kexdhinit (pr : Prims) (b : ServBehaviour) (st : Kex) (p : KexDHInitP) :
    Except Error Unit × Kex × List PacketO :=
  match st with
  | .KexDH algos kex_hash =>
    if algos.is_client then (.error .Bug, .KexDH algos kex_hash, [])
    else if algos.discard_next then
      (.ok (), .KexDH { algos with discard_next := false } kex_hash, [])
    else
      match SharedSecret.handle_kexdhinit_srv pr b algos kex_hash p with
      | .error e => (.error e, .Taken, [])
      | .ok (output, algos, sent) => (.ok (), .NewKeys output algos, sent ++ [.NewKeys])
  | _ => (.error .PacketWrong, .Taken, [])

/-- `Kex::handle_kexdhreply` of `kex.rs` (lines 336-361): on the client in
`KexDH`, a set discard flag silently drops the packet and clears the flag;
otherwise the exchange completes, moving to `NewKeys` and sending our
`NewKeys`; any other state is a wrong packet (after `take()` the state is
left `Taken`). -/
def Kex.handle_kexdhreply (pr : Prims) (b : CliBehaviour) (st : Kex) (p : KexDHReplyP) :
    Except Error Unit × Kex × List PacketO :=
  match st with
  | .KexDH algos kex_hash =>
    if !algos.is_client then (.error .Bug, .KexDH algos kex_hash, [])
    else if algos.discard_next then
      (.ok (), .KexDH { algos with discard_next := false } kex_hash, [])
    else
      match SharedSecret.handle_kexdhreply pr b algos kex_hash p with
      | .error e => (.error e, .Taken, [])
      | .ok (output, algos) => (.ok (), .NewKeys output algos, [.NewKeys])
  | _ => (.error .PacketWrong, .Taken, [])

/-- Result record of `Kex::handle_newkeys`: outcome, new kex state, the
session id after the call, and the keys handed to `TrafSend::rekey`. -/
structure NewKeysOut where
  res : Except Error Unit
  kex : Kex
  sess_id : Option Bytes
  rekeyed : Option Keys

/-- `Kex::handle_newkeys` of `kex.rs` (lines 363-377): in `NewKeys` the
first exchange hash becomes the persistent session id (`get_or_insert`),
keys are derived and installed and the state returns to `Idle`; any other
state is a wrong packet (the state was `take()`n, so it is left `Taken`). -/
def Kex.handle_newkeys (pr : Prims) (st : Kex) (sess_id : Option Bytes) : NewKeysOut :=
  match st with
  | .NewKeys output algos =>
    let sid := sess_id.getD output.h
    match Keys.derive pr output sid algos with
    | .error e => { res := .error e, kex := .Taken, sess_id := some sid, rekeyed := none }
    | .ok keys =>
      { res := .ok (), kex := .Idle, sess_id := some sid, rekeyed := some keys }
  | _ => { res := .error .PacketWrong, kex := .Taken, sess_id := sess_id, rekeyed := none }

/-! ## Client authentication (`cliauth.rs`, `client.rs`) -/

/-- `Req` of `cliauth.rs`: the outstanding authentication request. -/
inductive Req where
  | Password (pw : String)
  | PubKey (key : SignKey)
  deriving Repr, DecidableEq

/-- `AuthState` of `cliauth.rs`. -/
inductive AuthState where
  | Unstarted
  | MethodQuery
  | Request (last_req : Req)
  | Idle
  deriving Repr, DecidableEq

/-- `CliAuth` of `cliauth.rs`. -/
structure CliAuth where
  state : AuthState
  username : String
  try_password : Bool
  try_pubkey : Bool
  allow_rsa_sha2 : Bool
  deriving Repr, DecidableEq

/-- Behaviour notifications recorded by the embedded client auth code. -/
inductive BehaviourCall where
  | authenticated
  deriving Repr, DecidableEq

/-- `CliAuth::success` of `cliauth.rs` (lines 290-296): move to `Idle` and
notify the behaviour's `authenticated` callback. -/
def CliAuth.success (a : CliAuth) : CliAuth × List BehaviourCall :=
  ({ a with state := .Idle }, [.authenticated])

/-- `Client` of `client.rs`. -/
structure Client where
  auth : CliAuth
  deriving Repr, DecidableEq

/-- `Client::auth_success` of `client.rs` (lines 31-39), run on receipt of
`UserauthSuccess`: clear the auth-type parse hint, send
`ServiceRequest("ssh-connection")`, then `CliAuth::success`. -/
def Client.auth_success (c : Client) (parse_ctx : ParseContext) :
    Client × ParseContext × List PacketO × List BehaviourCall :=
  let parse_ctx := { parse_ctx with cli_auth_type := none }
  let (auth, calls) := c.auth.success
  ({ auth := auth }, parse_ctx, [.ServiceRequest SSH_SERVICE_CONNECTION], calls)

/-! ## Reference negotiation (amended-claim form)

A second definition of algorithm negotiation, written from the spec's words
amended with the AEAD exception, to be compared with
`Kex.algo_negotiation`. -/

/-- Per-category names chosen by the reference negotiation; a `none` MAC
records that the cipher for that direction is AEAD and implies its own
integrity algorithm. -/
structure AlgosChoice where
  kex : String
  hostsig : String
  cipher_tx : String
  cipher_rx : String
  mac_tx : Option String
  mac_rx : Option String
  comp_tx : String
  comp_rx : String
  deriving Repr, DecidableEq

/-- Reference negotiation, following the amended claim's words against the
standard configuration: for each of kex, host-signature, cipher (each
direction), mac (each direction) and compression (each direction), pick the
first entry in the client's list also present in the server's list, failing
with an algorithm-mismatch error when a category has no common entry —
except that the mac category is consulted only when the chosen cipher for
that direction is not AEAD (`chacha20-poly1305@openssh.com` is the AEAD
cipher); and the marker kex names must not win. -/
def negotiation_choice (is_client : Bool) (p : KexInitP) : Except Error AlgosChoice :=
  let conf := AlgoConfig.new is_client
  match NameList.first_match p.kex is_client conf.kexs with
  | none => .error (.AlgoNoMatch "kex")
  | some kexm =>
  if marker_only_kexs.contains kexm then .error (.AlgoNoMatch "kex")
  else
  match NameList.first_match p.hostsig is_client conf.hostsig with
  | none => .error (.AlgoNoMatch "hostkey")
  | some hostsigm =>
  let c2s := (p.cipher_c2s, p.mac_c2s, p.comp_c2s)
  let s2c := (p.cipher_s2c, p.mac_s2c, p.comp_s2c)
  let tx := if is_client then c2s else s2c
  let rx := if is_client then s2c else c2s
  match NameList.first_match tx.1 is_client conf.ciphers with
  | none => .error (.AlgoNoMatch "encryption")
  | some ciphertxm =>
  match NameList.first_match rx.1 is_client conf.ciphers with
  | none => .error (.AlgoNoMatch "encryption")
  | some cipherrxm =>
  match (if ciphertxm = SSH_NAME_CHAPOLY then Except.ok none
         else match NameList.first_match tx.2.1 is_client conf.macs with
              | none => Except.error (Error.AlgoNoMatch "mac")
              | some n => Except.ok (some n)) with
  | .error e => .error e
  | .ok mactxm =>
  match (if cipherrxm = SSH_NAME_CHAPOLY then Except.ok none
         else match NameList.first_match rx.2.1 is_client conf.macs with
              | none => Except.error (Error.AlgoNoMatch "mac")
              | some n => Except.ok (some n)) with
  | .error e => .error e
  | .ok macrxm =>
  match NameList.first_match tx.2.2 is_client conf.comps with
  | none => .error (.AlgoNoMatch "compression")
  | some comptxm =>
  match NameList.first_match rx.2.2 is_client conf.comps with
  | none => .error (.AlgoNoMatch "compression")
  | some comprxm =>
  .ok { kex := kexm, hostsig := hostsigm, cipher_tx := ciphertxm, cipher_rx := cipherrxm,
        mac_tx := mactxm, mac_rx := macrxm, comp_tx := comptxm, comp_rx := comprxm }

/-- Agreement between the code's negotiation result and the reference
choice: identical errors, and on success every negotiated algorithm is the
conversion of the chosen name (a `none` MAC choice means the cipher is AEAD
and implies the integrity algorithm). -/
def NegotiationAgrees (pr : Prims) : Except Error Algos → Except Error AlgosChoice → Prop
  | .error e, .error e2 => e = e2
  | .ok a, .ok ch =>
    SharedSecret.from_name pr ch.kex = .ok a.kex ∧
    SigType.from_name ch.hostsig = .ok a.hostsig ∧
    Cipher.from_name ch.cipher_tx = .ok a.cipher_enc ∧
    Cipher.from_name ch.cipher_rx = .ok a.cipher_dec ∧
    (match ch.mac_tx with
     | none => a.cipher_enc.integ = some a.integ_enc
     | some n => a.cipher_enc.integ = none ∧ Integ.from_name n = .ok a.integ_enc) ∧
    (match ch.mac_rx with
     | none => a.cipher_dec.integ = some a.integ_dec
     | some n => a.cipher_dec.integ = none ∧ Integ.from_name n = .ok a.integ_dec)
  | _, _ => False

/-! ## Concrete instances for witnesses and counterexamples -/

/-- Trivial instantiation of the abstract primitives. -/
def dummyPrims : Prims :=
  { sha256 := fun _ => []
    hmacSha256 := fun _ _ => []
    chapolySealEnc := fun _ _ _ => []
    chapolySealTag := fun _ _ _ => []
    chapolyOpen := fun _ _ _ _ => none
    chapolyDecLen := fun _ _ _ => []
    aesCtr := fun _ _ _ => []
    ed25519Verify := fun _ _ _ => false
    ed25519Sign := fun _ _ => []
    curve25519Base := fun _ => []
    curve25519Agree := fun _ _ => []
    randomBytes := fun _ => []
    serKexInit := fun _ => []
    serPubKey := fun _ => [] }

/-- Trivial server behaviour. -/
def dummyServ : ServBehaviour := { hostkeys := .ok [] }

/-- Trivial client behaviour. -/
def dummyCli : CliBehaviour := { valid_hostkey := fun _ => .ok false }

/-- A client `KexInit` whose mac name-lists share no entry with the standard
configuration while both cipher lists negotiate the AEAD cipher. -/
def cexMacKexInit : KexInitP :=
  { cookie := []
    kex := [SSH_NAME_CURVE25519]
    hostsig := [SSH_NAME_ED25519]
    cipher_c2s := [SSH_NAME_CHAPOLY]
    cipher_s2c := [SSH_NAME_CHAPOLY]
    mac_c2s := ["hmac-md5"]
    mac_s2c := ["hmac-md5"]
    comp_c2s := [SSH_NAME_NONE]
    comp_s2c := [SSH_NAME_NONE]
    lang_c2s := []
    lang_s2c := []
    first_follows := false
    reserved := 0 }

/-- The algorithms negotiated from `cexMacKexInit` on the server under
`dummyPrims`. -/
def cexMacAlgos : Algos :=
  { kex := .KexCurve25519 (some []) []
    hostsig := .Ed25519
    cipher_enc := .ChaPoly
    cipher_dec := .ChaPoly
    integ_enc := .ChaPoly
    integ_dec := .ChaPoly
    discard_next := false
    is_client := false
    send_ext_info := false }

/-- A client `KexInit` with the first-follows flag set whose first kex entry
differs from the server configuration's first kex entry. -/
def guessKexInit : KexInitP :=
  { cexMacKexInit with
    kex := [SSH_NAME_CURVE25519_LIBSSH, SSH_NAME_CURVE25519]
    first_follows := true }

/-- The algorithms negotiated from `guessKexInit` on the server under
`dummyPrims`: the discard flag is set. -/
def guessAlgos : Algos := { cexMacAlgos with discard_next := true }

/-! ## Theorems -/

/-- A name produced by `first_match` is a member of the local options. -/
theorem first_match_mem {remote ours : NameList} {c : Bool} {m : String}
    (h : NameList.first_match remote c ours = some m) : m ∈ ours := by
  unfold NameList.first_match at h
  cases c with
  | true =>
    simp only [if_true] at h
    exact List.mem_of_find?_eq_some h
  | false =>
    simp only [Bool.false_eq_true, if_false] at h
    have hp := List.find?_some h
    simpa using hp

/-- C1: on receipt of `UserauthSuccess`, the client authentication path
(`Client::auth_success` calling `CliAuth::success`) sends a `ServiceRequest`
packet with service name `ssh-connection`, notifies the behaviour's
`authenticated` callback, clears the auth-type parse hint, and moves the
authentication state to `Idle`. -/
theorem auth_success_behaviour :
    ∀ (c : Client) (parse_ctx : ParseContext),
      (Client.auth_success c parse_ctx).2.2.1 = [.ServiceRequest SSH_SERVICE_CONNECTION] ∧
      (Client.auth_success c parse_ctx).1.auth.state = .Idle ∧
      (Client.auth_success c parse_ctx).2.2.2 = [.authenticated] ∧
      (Client.auth_success c parse_ctx).2.1.cli_auth_type = none := by
  intro c ctx
  exact ⟨rfl, rfl, rfl, rfl⟩

/-- C3: for every payload length, the padding chosen by the encrypt path
satisfies `pad >= 4`; the cipher block size is at least 8; the encrypted
length (`1 + P + pad`, including the 4-byte length prefix for non-AEAD
ciphers and excluding it for AEAD ciphers) is a multiple of the block size;
and the total packet excluding the MAC is at least 16 bytes. -/
theorem calc_encrypt_pad_ok (k : Keys) (P : Nat) :
    SSH_MIN_PADLEN ≤ k.calc_encrypt_pad P ∧
    8 ≤ k.enc.size_block ∧
    ((if k.enc.is_aead then 0 else SSH_LENGTH_SIZE) + 1 + P + k.calc_encrypt_pad P) %
      k.enc.size_block = 0 ∧
    SSH_MIN_PACKET_SIZE ≤ SSH_LENGTH_SIZE + 1 + P + k.calc_encrypt_pad P := by
  obtain ⟨enc, dec, ie, idk⟩ := k
  cases enc <;>
    simp only [Keys.calc_encrypt_pad, EncKey.size_block, EncKey.is_aead, SSH_MIN_BLOCK,
      SSH_MIN_PADLEN, SSH_LENGTH_SIZE, SSH_MIN_PACKET_SIZE] <;>
    refine ⟨?_, ?_, ?_, ?_⟩ <;> (try omega) <;> (split_ifs <;> omega)

/-- C4: the send and receive sequence numbers are 32-bit wraparound
counters starting at zero; each whole-packet encrypt increments the send
counter by exactly one, each whole-packet decrypt increments the receive
counter by exactly one, decrypting only the first block increments neither,
and installing new keys on rekey leaves both counters unchanged. -/
theorem seq_numbers_spec :
    (KeyState.new_cleartext.seq_encrypt = 0 ∧ KeyState.new_cleartext.seq_decrypt = 0) ∧
    (∀ (pr : Prims) (st : KeyState) (payload_len : Nat) (buf : Bytes),
      (KeyState.encrypt pr st payload_len buf).2.seq_encrypt = (st.seq_encrypt + 1) % 2 ^ 32 ∧
      (KeyState.encrypt pr st payload_len buf).2.seq_decrypt = st.seq_decrypt) ∧
    (∀ (pr : Prims) (st : KeyState) (buf : Bytes),
      (KeyState.decrypt pr st buf).2.seq_decrypt = (st.seq_decrypt + 1) % 2 ^ 32 ∧
      (KeyState.decrypt pr st buf).2.seq_encrypt = st.seq_encrypt) ∧
    (∀ (pr : Prims) (st : KeyState) (buf : Bytes),
      (KeyState.decrypt_first_block pr st buf).2 = st) ∧
    (∀ (st : KeyState) (ks : Keys),
      (KeyState.rekey st ks).seq_encrypt = st.seq_encrypt ∧
      (KeyState.rekey st ks).seq_decrypt = st.seq_decrypt) := by
  refine ⟨⟨rfl, rfl⟩, ?_, ?_, ?_, ?_⟩ <;> intros <;>
    simp [KeyState.encrypt, KeyState.decrypt, KeyState.decrypt_first_block, KeyState.rekey]

/-- C10: each call to the stateful whole-packet decrypt increments the
receive sequence number even when it returns an error, and each call to the
stateful encrypt increments the send sequence number even when it returns
an error; the update is not rolled back. -/
theorem seq_increment_on_error :
    (∀ (pr : Prims) (st : KeyState) (buf : Bytes) (e : Error),
      (KeyState.decrypt pr st buf).1 = .error e →
      (KeyState.decrypt pr st buf).2.seq_decrypt = (st.seq_decrypt + 1) % 2 ^ 32) ∧
    (∀ (pr : Prims) (st : KeyState) (payload_len : Nat) (buf : Bytes) (e : Error),
      (KeyState.encrypt pr st payload_len buf).1 = .error e →
      (KeyState.encrypt pr st payload_len buf).2.seq_encrypt = (st.seq_encrypt + 1) % 2 ^ 32) := by
  constructor <;> intros <;> rfl

/-- C10 witness: concrete failing decrypt and encrypt calls still advance
their sequence numbers from 0 to 1. -/
theorem seq_increment_on_error_witness :
    ((KeyState.decrypt dummyPrims KeyState.new_cleartext []).1 = .error .SSHProtoError ∧
     (KeyState.decrypt dummyPrims KeyState.new_cleartext []).2.seq_decrypt = 1) ∧
    ((KeyState.encrypt dummyPrims KeyState.new_cleartext 100 []).1 = .error .NoRoom ∧
     (KeyState.encrypt dummyPrims KeyState.new_cleartext 100 []).2.seq_encrypt = 1) := by
  constructor
  · refine ⟨by decide, ?_⟩
    have h := seq_increment_on_error.1 dummyPrims KeyState.new_cleartext [] .SSHProtoError
      (by decide)
    simpa using h
  · refine ⟨by decide, ?_⟩
    have h := seq_increment_on_error.2 dummyPrims KeyState.new_cleartext 100 [] .NoRoom
      (by decide)
    simpa using h

/-- C5: handling `NewKeys` assigns the session id exactly once: an unset
session id becomes the exchange hash `h` of the completing key exchange,
an already-set session id is left unchanged by every subsequent exchange,
non-`NewKeys` states fail with a wrong-packet error without touching the
session id, and the `h` of a `KexOutput` is the finished exchange hash. -/
theorem session_id_set_once :
    (∀ (pr : Prims) (output : KexOutput) (algos : Algos),
      (Kex.handle_newkeys pr (.NewKeys output algos) none).sess_id = some output.h) ∧
    (∀ (pr : Prims) (output : KexOutput) (algos : Algos) (sid : Bytes),
      (Kex.handle_newkeys pr (.NewKeys output algos) (some sid)).sess_id = some sid) ∧
    (∀ (pr : Prims) (sid : Option Bytes),
      Kex.handle_newkeys pr .Idle sid = ⟨.error .PacketWrong, .Taken, sid, none⟩) ∧
    (∀ (pr : Prims) (c : Bytes) (sid : Option Bytes),
      Kex.handle_newkeys pr (.KexInit c) sid = ⟨.error .PacketWrong, .Taken, sid, none⟩) ∧
    (∀ (pr : Prims) (a : Algos) (kh : Bytes) (sid : Option Bytes),
      Kex.handle_newkeys pr (.KexDH a kh) sid = ⟨.error .PacketWrong, .Taken, sid, none⟩) ∧
    (∀ (pr : Prims) (sid : Option Bytes),
      Kex.handle_newkeys pr .Taken sid = ⟨.error .PacketWrong, .Taken, sid, none⟩) ∧
    (∀ (pr : Prims) (k kex_hash : Bytes),
      (KexOutput.new pr k kex_hash).h = KexHash.finish pr kex_hash k) := by
  refine ⟨?_, ?_, fun _ _ => rfl, fun _ _ _ => rfl, fun _ _ _ _ => rfl, fun _ _ => rfl,
    fun _ _ _ => rfl⟩
  · intro pr o a
    unfold Kex.handle_newkeys
    simp only [Option.getD]
    cases h : Keys.derive pr o o.h a <;> simp [h]
  · intro pr o a sid
    unfold Kex.handle_newkeys
    simp only [Option.getD]
    cases h : Keys.derive pr o sid a <;> simp [h]

/-- C7: the exchange hash is the SHA-256 digest of the concatenation, in
order and each length-prefixed, of the client version line, the server
version line, the client `KexInit` payload, the server `KexInit` payload,
the host-key blob, the client public point, the server public point, and
the shared secret encoded as an mpint — in both roles. -/
theorem exchange_hash_input_order :
    ∀ (pr : Prims) (is_client : Bool) (remote_version our_cookie : Bytes)
      (conf : AlgoConfig) (remote_kexinit : KexInitP) (host_key : PubKeyP) (q_c q_s k : Bytes),
    KexHash.finish pr
        (KexHash.prefinish pr
          (KexHash.new pr is_client remote_version our_cookie conf remote_kexinit)
          host_key q_c q_s) k =
      pr.sha256 (
        encBin (if is_client then OUR_VERSION else remote_version) ++
        (encBin (if is_client then remote_version else OUR_VERSION) ++
        (encBin (pr.serKexInit (if is_client then Kex.make_kexinit our_cookie conf
                               else remote_kexinit)) ++
        (encBin (pr.serKexInit (if is_client then remote_kexinit
                               else Kex.make_kexinit our_cookie conf)) ++
        (encBin (pr.serPubKey host_key) ++ (encBin q_c ++ (encBin q_s ++ mpintBytes k))))))) := by
  intro pr c rv ck conf rki hk qc qs k
  cases c <;>
    simp [KexHash.finish, KexHash.prefinish, KexHash.new, KexHash.hash_slice,
      hash_ser_length, hash_mpint, encBin, List.append_assoc]

/-- C8: decoding the message numbered 60 with a parse context whose client
authentication-type hint is `Password` runs the password-change-request
decoder (so any produced value is that variant), with hint `PubKey` runs
the pk-ok decoder, and with no hint set it fails with a wrong-packet error
and never produces a value. -/
theorem userauth60_hint_dispatch :
    (∀ (fsb su : Bool) (b : Bytes),
      Userauth60P.dec ⟨some .Password, fsb, su⟩ b =
        (UserauthPwChangeReqP.dec b).map (fun vr => (.PwChangeReq vr.1, vr.2))) ∧
    (∀ (fsb su : Bool) (b : Bytes),
      Userauth60P.dec ⟨some .PubKey, fsb, su⟩ b =
        (UserauthPkOkP.dec b).map (fun vr => (.PkOk vr.1, vr.2))) ∧
    (∀ (fsb su : Bool) (b : Bytes),
      Userauth60P.dec ⟨none, fsb, su⟩ b = .error .PacketWrong) := by
  refine ⟨?_, ?_, fun _ _ _ => rfl⟩
  · intro fsb su b
    cases h : UserauthPwChangeReqP.dec b with
    | error e => simp [Userauth60P.dec, h, Except.map]
    | ok vr => obtain ⟨v, r⟩ := vr; simp [Userauth60P.dec, h, Except.map]
  · intro fsb su b
    cases h : UserauthPkOkP.dec b with
    | error e => simp [Userauth60P.dec, h, Except.map]
    | ok vr => obtain ⟨v, r⟩ := vr; simp [Userauth60P.dec, h, Except.map]

/-- C9: for the tagged unions of the wire model, decoding an unrecognised
variant name yields the catch-all `Unknown` variant capturing the name
bytes, and attempting to encode a value containing an `Unknown` variant
fails with a bug (programmer) error and yields no wire bytes. -/
theorem unknown_variant_capture :
    (∀ (name b : Bytes),
      name ∉ [strBytes "session", strBytes "forwarded-tcpip", strBytes "direct-tcpip"] →
      ChannelOpenType.dec_enum name b = .ok (.Unknown name, b)) ∧
    (∀ (co : ChannelOpenP) (u : Bytes), co.ty = .Unknown u →
      ChannelOpenP.enc co = .error .Bug) ∧
    (∀ (name b : Bytes), name ∉ [strBytes SSH_NAME_ED25519, strBytes SSH_NAME_RSA] →
      PubKeyP.dec_enum name b = .ok (.Unknown name, b)) ∧
    (∀ u : Bytes, PubKeyP.enc (.Unknown u) = .error .Bug) ∧
    (∀ u : Bytes, PubKeyP.variant_name (.Unknown u) = .error .Bug) := by
  refine ⟨?_, ?_, ?_, fun _ => rfl, fun _ => rfl⟩
  · intro name b h
    simp only [List.mem_cons, List.mem_singleton, not_or] at h
    simp [ChannelOpenType.dec_enum, h.1, h.2.1, h.2.2]
  · intro co u h
    unfold ChannelOpenP.enc
    rw [h]
    rfl
  · intro name b h
    simp only [List.mem_cons, List.mem_singleton, not_or] at h
    simp [PubKeyP.dec_enum, h.1, h.2.1]

/-- C9 witness: an `audio-stream` channel type decodes to `Unknown`, and a
`ChannelOpen` holding it refuses to encode. -/
theorem unknown_variant_capture_witness :
    ChannelOpenType.dec_enum (strBytes "audio-stream") [] =
      .ok (.Unknown (strBytes "audio-stream"), []) ∧
    ChannelOpenP.enc
      { num := 0, initial_window := 200000, max_packet := 88200,
        ty := .Unknown (strBytes "audio-stream") } = .error .Bug ∧
    PubKeyP.dec_enum (strBytes "my-key-type") [] =
      .ok (.Unknown (strBytes "my-key-type"), []) :=
  ⟨unknown_variant_capture.1 _ _ (by decide),
   unknown_variant_capture.2.1 _ _ rfl,
   unknown_variant_capture.2.2.1 _ _ (by decide)⟩

/-- C2: when the peer's `KexInit` has the first-follows flag set and the
guessed kex algorithm (the first entry of both sides' lists, or the first
entry of the peer's own list under the `kexguess2` marker) differs from the
negotiated choice, negotiation sets the one-shot discard flag, and the next
received `KexDH` packet (`KexDHInit` on the server, `KexDHReply` on the
client) is discarded silently: the handler returns success, sends nothing,
and leaves the state unchanged except that the discard flag is cleared, so
exactly one packet is skipped. -/
theorem first_follows_mismatch_discard
    (pr : Prims) (c : Bool) (p : KexInitP) (conf : AlgoConfig) (a : Algos)
    (hok : Kex.algo_negotiation pr c p conf = .ok a)
    (hff : p.first_follows = true)
    (hg2 : NameList.has_algo p.kex SSH_NAME_KEXGUESS2 = true →
      ∀ m, NameList.first_match p.kex c conf.kexs = some m → NameList.first p.kex ≠ m)
    (hng : NameList.has_algo p.kex SSH_NAME_KEXGUESS2 = false →
      NameList.first p.kex ≠ NameList.first conf.kexs) :
    a.discard_next = true ∧
    (∀ (b : ServBehaviour) (kex_hash : Bytes) (q : KexDHInitP), a.is_client = false →
      Kex.handle_kexdhinit pr b (.KexDH a kex_hash) q =
        (.ok (), .KexDH { a with discard_next := false } kex_hash, [])) ∧
    (∀ (b : CliBehaviour) (kex_hash : Bytes) (q : KexDHReplyP), a.is_client = true →
      Kex.handle_kexdhreply pr b (.KexDH a kex_hash) q =
        (.ok (), .KexDH { a with discard_next := false } kex_hash, [])) := by
  have hd : a.discard_next = true := by
    simp only [Kex.algo_negotiation] at hok
    cases hkm : NameList.first_match p.kex c conf.kexs with
    | none => rw [hkm] at hok; cases hok
    | some kex_method =>
      simp only [hkm] at hok
      repeat' split at hok
      all_goals (try (cases hok))
      all_goals simp [hff, beq_eq_false_iff_ne]
      all_goals
        first
        | exact Or.inl (hg2 (by assumption) kex_method hkm)
        | exact Or.inl (hng (by simpa using (by assumption :
            ¬ NameList.has_algo p.kex SSH_NAME_KEXGUESS2 = true)))
  refine ⟨hd, ?_, ?_⟩
  · intro b kh q hcl
    simp [Kex.handle_kexdhinit, hcl, hd]
  · intro b kh q hcl
    simp [Kex.handle_kexdhreply, hcl, hd]

/-- C2 witness: a concrete server-side negotiation with first-follows set
and a wrong guess sets the discard flag, and the following `KexDHInit` is
dropped with the flag cleared. -/
theorem first_follows_mismatch_discard_witness :
    Kex.algo_negotiation dummyPrims false guessKexInit (AlgoConfig.new false) =
      .ok guessAlgos ∧
    guessAlgos.discard_next = true ∧
    Kex.handle_kexdhinit dummyPrims dummyServ (.KexDH guessAlgos []) { q_c := [] } =
      (.ok (), .KexDH { guessAlgos with discard_next := false } [], []) := by
  have hok : Kex.algo_negotiation dummyPrims false guessKexInit (AlgoConfig.new false) =
      .ok guessAlgos := by decide
  have h := first_follows_mismatch_discard dummyPrims false guessKexInit
    (AlgoConfig.new false) guessAlgos hok (by decide)
    (fun htrue => absurd htrue (by decide))
    (fun _ => by decide)
  exact ⟨hok, h.1, h.2.1 dummyServ [] { q_c := [] } (by decide)⟩

/-- C6 counterexample: a client `KexInit` whose mac name-lists share no
entry with the standard configuration still negotiates successfully,
because both directions pick the AEAD cipher and the mac category is never
consulted — contradicting the claim that any category without a common
entry fails with algorithm-mismatch. -/
theorem mac_ignored_for_aead_counterexample :
    Kex.algo_negotiation dummyPrims false cexMacKexInit (AlgoConfig.new false) =
      .ok cexMacAlgos ∧
    (∀ m ∈ cexMacKexInit.mac_c2s, m ∉ (AlgoConfig.new false).macs) ∧
    (∀ m ∈ cexMacKexInit.mac_s2c, m ∉ (AlgoConfig.new false).macs) := by
  decide

/-- C6 (amended): against the standard configuration, algorithm negotiation
agrees with the reference that picks, for each of kex, host-signature,
cipher (each direction), compression (each direction) and — only when the
chosen cipher for that direction is not AEAD — mac (each direction), the
first entry in the client's list also present in the server's list, failing
with an algorithm-mismatch error when such a category has no common entry,
and failing likewise when a marker kex name wins. -/
theorem algo_negotiation_matches_reference (pr : Prims) (c : Bool) (p : KexInitP) :
    NegotiationAgrees pr (Kex.algo_negotiation pr c p (AlgoConfig.new c))
      (negotiation_choice c p) := by
  have hm1 : SSH_NAME_CURVE25519 ∉ marker_only_kexs := by decide
  have hm2 : SSH_NAME_CURVE25519_LIBSSH ∉ marker_only_kexs := by decide
  have hm3 : SSH_NAME_KEXGUESS2 ∈ marker_only_kexs := by decide
  have hm4 : SSH_NAME_EXT_INFO_C ∈ marker_only_kexs := by decide
  have hfn2 : SharedSecret.from_name pr SSH_NAME_CURVE25519 = .ok (KexCurve25519.new pr) := by
    simp [SharedSecret.from_name]
  have hfn3 : SharedSecret.from_name pr SSH_NAME_CURVE25519_LIBSSH =
      .ok (KexCurve25519.new pr) := by
    simp [SharedSecret.from_name]
  have hsf : SigType.from_name SSH_NAME_ED25519 = .ok .Ed25519 := by decide
  have hcf1 : Cipher.from_name SSH_NAME_CHAPOLY = .ok .ChaPoly := by decide
  have hcf2 : Cipher.from_name SSH_NAME_AES256_CTR = .ok .Aes256Ctr := by decide
  have hif : Integ.from_name SSH_NAME_HMAC_SHA256 = .ok .HmacSha256 := by decide
  have hne : SSH_NAME_AES256_CTR ≠ SSH_NAME_CHAPOLY := by decide
  cases c with
  | false =>
    simp only [Kex.algo_negotiation, negotiation_choice]
    cases hkm : NameList.first_match p.kex false (AlgoConfig.new false).kexs with
    | none => simp [NegotiationAgrees]
    | some m =>
    have hmem := first_match_mem hkm
    simp [AlgoConfig.new, fixed_options_kex] at hmem
    rcases hmem with rfl | rfl | rfl
    case inr.inr => simp [hm3, NegotiationAgrees]
    all_goals simp [hm1, hm2, hfn2, hfn3]
    all_goals (
      cases hhs : NameList.first_match p.hostsig false (AlgoConfig.new false).hostsig with
      | none => simp [NegotiationAgrees]
      | some hsm =>
      have hsmem := first_match_mem hhs
      simp [AlgoConfig.new, fixed_options_hostsig] at hsmem
      subst hsmem
      simp [hsf]
      cases hct : NameList.first_match p.cipher_s2c false (AlgoConfig.new false).ciphers with
      | none => simp [NegotiationAgrees]
      | some ct =>
      have hctm := first_match_mem hct
      simp [AlgoConfig.new, fixed_options_cipher] at hctm
      rcases hctm with rfl | rfl
      · simp [hcf1, Cipher.integ]
        cases hcr : NameList.first_match p.cipher_c2s false (AlgoConfig.new false).ciphers with
        | none => simp [NegotiationAgrees]
        | some cr =>
        have hcrm := first_match_mem hcr
        simp [AlgoConfig.new, fixed_options_cipher] at hcrm
        rcases hcrm with rfl | rfl
        · simp [hcf1, Cipher.integ]
          cases hpt : NameList.first_match p.comp_s2c false (AlgoConfig.new false).comps with
          | none => simp [NegotiationAgrees]
          | some pt =>
          cases hpx : NameList.first_match p.comp_c2s false (AlgoConfig.new false).comps with
          | none => simp [NegotiationAgrees]
          | some px =>
          simp [NegotiationAgrees, hfn2, hfn3, hsf, hcf1, hcf2, hif, hne, Cipher.integ]
        · simp [hcf2, Cipher.integ, hne]
          cases hmr : NameList.first_match p.mac_c2s false (AlgoConfig.new false).macs with
          | none => simp [NegotiationAgrees]
          | some mr =>
          have hmrm := first_match_mem hmr
          simp [AlgoConfig.new, fixed_options_mac] at hmrm
          subst hmrm
          simp [hif]
          cases hpt : NameList.first_match p.comp_s2c false (AlgoConfig.new false).comps with
          | none => simp [NegotiationAgrees]
          | some pt =>
          cases hpx : NameList.first_match p.comp_c2s false (AlgoConfig.new false).comps with
          | none => simp [NegotiationAgrees]
          | some px =>
          simp [NegotiationAgrees, hfn2, hfn3, hsf, hcf1, hcf2, hif, hne, Cipher.integ]
      · simp [hcf2, Cipher.integ, hne]
        cases hmt : NameList.first_match p.mac_s2c false (AlgoConfig.new false).macs with
        | none =>
          cases hcr : NameList.first_match p.cipher_c2s false (AlgoConfig.new false).ciphers with
          | none => simp [NegotiationAgrees]
          | some cr =>
          have hcrm := first_match_mem hcr
          simp [AlgoConfig.new, fixed_options_cipher] at hcrm
          rcases hcrm with rfl | rfl <;> simp [hcf1, hcf2, NegotiationAgrees]
        | some mt =>
        have hmtm := first_match_mem hmt
        simp [AlgoConfig.new, fixed_options_mac] at hmtm
        subst hmtm
        simp [hif]
        cases hcr : NameList.first_match p.cipher_c2s false (AlgoConfig.new false).ciphers with
        | none => simp [NegotiationAgrees]
        | some cr =>
        have hcrm := first_match_mem hcr
        simp [AlgoConfig.new, fixed_options_cipher] at hcrm
        rcases hcrm with rfl | rfl
        · simp [hcf1, Cipher.integ]
          cases hpt : NameList.first_match p.comp_s2c false (AlgoConfig.new false).comps with
          | none => simp [NegotiationAgrees]
          | some pt =>
          cases hpx : NameList.first_match p.comp_c2s false (AlgoConfig.new false).comps with
          | none => simp [NegotiationAgrees]
          | some px =>
          simp [NegotiationAgrees, hfn2, hfn3, hsf, hcf1, hcf2, hif, hne, Cipher.integ]
        · simp [hcf2, Cipher.integ, hne]
          cases hmr : NameList.first_match p.mac_c2s false (AlgoConfig.new false).macs with
          | none => simp [NegotiationAgrees]
          | some mr =>
          have hmrm := first_match_mem hmr
          simp [AlgoConfig.new, fixed_options_mac] at hmrm
          subst hmrm
          simp [hif]
          cases hpt : NameList.first_match p.comp_s2c false (AlgoConfig.new false).comps with
          | none => simp [NegotiationAgrees]
          | some pt =>
          cases hpx : NameList.first_match p.comp_c2s false (AlgoConfig.new false).comps with
          | none => simp [NegotiationAgrees]
          | some px =>
          simp [NegotiationAgrees, hfn2, hfn3, hsf, hcf1, hcf2, hif, hne, Cipher.integ])
  | true =>
    simp only [Kex.algo_negotiation, negotiation_choice]
    cases hkm : NameList.first_match p.kex true (AlgoConfig.new true).kexs with
    | none => simp [NegotiationAgrees]
    | some m =>
    have hmem := first_match_mem hkm
    simp [AlgoConfig.new, fixed_options_kex] at hmem
    rcases hmem with rfl | rfl | rfl | rfl
    case inr.inr.inl => simp [hm4, NegotiationAgrees]
    case inr.inr.inr => simp [hm3, NegotiationAgrees]
    all_goals simp [hm1, hm2, hfn2, hfn3]
    all_goals (
      cases hhs : NameList.first_match p.hostsig true (AlgoConfig.new true).hostsig with
      | none => simp [NegotiationAgrees]
      | some hsm =>
      have hsmem := first_match_mem hhs
      simp [AlgoConfig.new, fixed_options_hostsig] at hsmem
      subst hsmem
      simp [hsf]
      cases hct : NameList.first_match p.cipher_c2s true (AlgoConfig.new true).ciphers with
      | none => simp [NegotiationAgrees]
      | some ct =>
      have hctm := first_match_mem hct
      simp [AlgoConfig.new, fixed_options_cipher] at hctm
      rcases hctm with rfl | rfl
      · simp [hcf1, Cipher.integ]
        cases hcr : NameList.first_match p.cipher_s2c true (AlgoConfig.new true).ciphers with
        | none => simp [NegotiationAgrees]
        | some cr =>
        have hcrm := first_match_mem hcr
        simp [AlgoConfig.new, fixed_options_cipher] at hcrm
        rcases hcrm with rfl | rfl
        · simp [hcf1, Cipher.integ]
          cases hpt : NameList.first_match p.comp_c2s true (AlgoConfig.new true).comps with
          | none => simp [NegotiationAgrees]
          | some pt =>
          cases hpx : NameList.first_match p.comp_s2c true (AlgoConfig.new true).comps with
          | none => simp [NegotiationAgrees]
          | some px =>
          simp [NegotiationAgrees, hfn2, hfn3, hsf, hcf1, hcf2, hif, hne, Cipher.integ]
        · simp [hcf2, Cipher.integ, hne]
          cases hmr : NameList.first_match p.mac_s2c true (AlgoConfig.new true).macs with
          | none => simp [NegotiationAgrees]
          | some mr =>
          have hmrm := first_match_mem hmr
          simp [AlgoConfig.new, fixed_options_mac] at hmrm
          subst hmrm
          simp [hif]
          cases hpt : NameList.first_match p.comp_c2s true (AlgoConfig.new true).comps with
          | none => simp [NegotiationAgrees]
          | some pt =>
          cases hpx : NameList.first_match p.comp_s2c true (AlgoConfig.new true).comps with
          | none => simp [NegotiationAgrees]
          | some px =>
          simp [NegotiationAgrees, hfn2, hfn3, hsf, hcf1, hcf2, hif, hne, Cipher.integ]
      · simp [hcf2, Cipher.integ, hne]
        cases hmt : NameList.first_match p.mac_c2s true (AlgoConfig.new true).macs with
        | none =>
          cases hcr : NameList.first_match p.cipher_s2c true (AlgoConfig.new true).ciphers with
          | none => simp [NegotiationAgrees]
          | some cr =>
          have hcrm := first_match_mem hcr
          simp [AlgoConfig.new, fixed_options_cipher] at hcrm
          rcases hcrm with rfl | rfl <;> simp [hcf1, hcf2, NegotiationAgrees]
        | some mt =>
        have hmtm := first_match_mem hmt
        simp [AlgoConfig.new, fixed_options_mac] at hmtm
        subst hmtm
        simp [hif]
        cases hcr : NameList.first_match p.cipher_s2c true (AlgoConfig.new true).ciphers with
        | none => simp [NegotiationAgrees]
        | some cr =>
        have hcrm := first_match_mem hcr
        simp [AlgoConfig.new, fixed_options_cipher] at hcrm
        rcases hcrm with rfl | rfl
        · simp [hcf1, Cipher.integ]
          cases hpt : NameList.first_match p.comp_c2s true (AlgoConfig.new true).comps with
          | none => simp [NegotiationAgrees]
          | some pt =>
          cases hpx : NameList.first_match p.comp_s2c true (AlgoConfig.new true).comps with
          | none => simp [NegotiationAgrees]
          | some px =>
          simp [NegotiationAgrees, hfn2, hfn3, hsf, hcf1, hcf2, hif, hne, Cipher.integ]
        · simp [hcf2, Cipher.integ, hne]
          cases hmr : NameList.first_match p.mac_s2c true (AlgoConfig.new true).macs with
          | none => simp [NegotiationAgrees]
          | some mr =>
          have hmrm := first_match_mem hmr
          simp [AlgoConfig.new, fixed_options_mac] at hmrm
          subst hmrm
          simp [hif]
          cases hpt : NameList.first_match p.comp_c2s true (AlgoConfig.new true).comps with
          | none => simp [NegotiationAgrees]
          | some pt =>
          cases hpx : NameList.first_match p.comp_s2c true (AlgoConfig.new true).comps with
          | none => simp [NegotiationAgrees]
          | some px =>
          simp [NegotiationAgrees, hfn2, hfn3, hsf, hcf1, hcf2, hif, hne, Cipher.integ])

end Sunset
